import Mathlib

set_option maxHeartbeats 1000000

namespace WalmartApplier

/-! ## Shallow embedding of `src/job_filter.py` (class `JobFilter`)

A discovered job stub is a Python dict; the code reads the keys `url` and
`title` with `dict.get`, so both are modelled as optional. -/

/-! ### Executable Python-string helpers

Core `String.trim`, `String.splitOn`, `String.drop` and friends are defined
through `Substring` auxiliaries that use well-founded recursion, which the
kernel cannot reduce, so concrete witnesses could not be checked with
`decide`.  The helpers below re-implement the exact Python string operations
the two source files use (`str.strip`, `str.split`, slicing, `str.join`,
`str.startswith`) by structural recursion over the character list. -/

/-- Drop leading whitespace characters. -/
def dropLeadingWs : List Char → List Char
  | [] => []
  | c :: cs => if c.isWhitespace then dropLeadingWs cs else c :: cs

/-- Python `str.strip()`. -/
def pyStrip (s : String) : String :=
  ⟨(dropLeadingWs (dropLeadingWs s.data.reverse).reverse)⟩

/-- Split a character list on a separator character, Python `str.split(sep)`
semantics (`''.split(sep) == ['']`). -/
def splitOnChar (sep : Char) : List Char → List (List Char)
  | [] => [[]]
  | c :: cs =>
    let r := splitOnChar sep cs
    if c = sep then [] :: r
    else
      match r with
      | [] => [[c]]
      | h :: t => (c :: h) :: t

/-- Python `md_content.split('\n')`. -/
def pyLines (s : String) : List String :=
  (splitOnChar (Char.ofNat 10) s.data).map (fun cs => ⟨cs⟩)

/-- Python slicing `s[n:]`. -/
def pyDrop (s : String) (n : Nat) : String :=
  ⟨s.data.drop n⟩

/-- Whether one character list begins with another. -/
def beginsWithList : List Char → List Char → Bool
  | [], _ => true
  | _ :: _, [] => false
  | p :: ps, c :: cs => p == c && beginsWithList ps cs

/-- Python `s.startswith(p)`. -/
def pyStartsWith (s p : String) : Bool :=
  beginsWithList p.data s.data

/-- Join character lists with a newline between them. -/
def joinWithNL : List (List Char) → List Char
  | [] => []
  | [l] => l
  | l :: rest => l ++ (Char.ofNat 10) :: joinWithNL rest

/-- Python `"\n".join(lines)`. -/
def pyJoinLines (ls : List String) : String :=
  ⟨joinWithNL (ls.map String.data)⟩

structure Job where
  url : Option String
  title : Option String
deriving DecidableEq, Repr

/-- One entry of a record's `history` list: `{"timestamp": now, "status": status,
"explanation": explanation}` as appended by `update_job_status` (the raw
`explanation` argument is stored, before the truthiness clearing). -/
structure HistoryEntry where
  timestamp : Nat
  status : String
  explanation : Option String
deriving DecidableEq, Repr

/-- A value of the `processed_jobs` dictionary.  Every field models a Python
dict key that may be absent (`none`); timestamps are abstracted to `Nat`. -/
structure JobRecord where
  title : Option String
  status : Option String
  explanation : Option String
  history : Option (List HistoryEntry)
  last_updated : Option Nat
deriving DecidableEq, Repr

/-- The in-memory `self.processed_jobs` dictionary, keyed by job URL. -/
abbrev Store := List (String × JobRecord)

/-- Dictionary lookup: `self.processed_jobs[job_url]` / `job_url in self.processed_jobs`. -/
def Store.find : Store → String → Option JobRecord
  | [], _ => none
  | (k, v) :: rest, u => if k = u then some v else Store.find rest u

/-- Dictionary assignment `self.processed_jobs[job_url] = entry` (replace in
place if the key exists, else append, matching dict insertion order). -/
def Store.insert : Store → String → JobRecord → Store
  | [], u, r => [(u, r)]
  | (k, v) :: rest, u, r => if k = u then (u, r) :: rest else (k, v) :: Store.insert rest u r

/-- `final_statuses = {"Applied", "Not Relevant"}` in `get_jobs_to_process`. -/
def finalStatuses : List String := [("Applied"), ("Not Relevant")]

/-- `JobFilter.get_jobs_to_process` (src/job_filter.py lines 46-85): walks the
`found_jobs` list in order; a job with a falsy `url` is skipped; a URL absent
from `processed_jobs` goes to `new_jobs`; an existing record goes to
`retry_jobs` exactly when its `status` is truthy and not final; otherwise the
job is dropped.  The method only reads `self.processed_jobs`, so the embedding
is a pure function of the store. -/
def get_jobs_to_process (store : Store) : List Job → List Job × List Job
  | [] => ([], [])
  | job :: rest =>
    let acc := get_jobs_to_process store rest
    match job.url with
    | none => acc
    | some u =>
      if u = "" then acc
      else
        match Store.find store u with
        | none => (job :: acc.1, acc.2)
        | some entry =>
          match entry.status with
          | none => acc
          | some st =>
            if st ≠ "" ∧ st ∉ finalStatuses then (acc.1, job :: acc.2) else acc

/-- The fresh record `{"title": title, "history": []}` created when the URL is
not yet in `processed_jobs`. -/
def initialRecord (title : String) : JobRecord :=
  ⟨some title, none, none, some [], none⟩

/-- The mutations `update_job_status` performs on an (already title-fixed)
record: set `last_updated` and `status`, set or pop `explanation` by Python
truthiness of the argument, and append one history entry holding the raw
argument. -/
def applyStatus (r : JobRecord) (status : String) (explanation : Option String) (now : Nat) :
    JobRecord :=
  let r1 : JobRecord := { r with last_updated := some now, status := some status }
  let r2 : JobRecord :=
    match explanation with
    | some x => if x = "" then { r1 with explanation := none } else { r1 with explanation := some x }
    | none => { r1 with explanation := none }
  { r2 with history := some (r2.history.getD [] ++ [⟨now, status, explanation⟩]) }

/-- The record `update_job_status` starts from: freshly created when the URL
is absent, otherwise the stored record with `title` overwritten only when the
stored one is missing or falsy. -/
def recordBase (found : Option JobRecord) (title : String) : JobRecord :=
  match found with
  | none => initialRecord title
  | some r =>
    if r.title = none ∨ r.title = some "" then { r with title := some title } else r

/-- `JobFilter.update_job_status` (src/job_filter.py lines 87-123), in-memory
part.  A falsy `job_url` is rejected (early return).  The record is created if
absent; an existing record's `title` is overwritten only when missing or
empty.  The trailing `_save_processed_jobs()` call is modelled separately in
`update_job_status_and_save`. -/
def update_job_status (s : Store) (job_url title status : String) (explanation : Option String)
    (now : Nat) : Store :=
  if job_url = "" then s
  else Store.insert s job_url (applyStatus (recordBase (Store.find s job_url) title) status
    explanation now)

/-- Contents of `processed_jobs.json`: either a complete JSON dump of some
store, or the torn remains of an interrupted write — `_save_processed_jobs`
opens the file with mode `w`, which truncates it *before* `json.dump` runs,
so a failure during the dump leaves an arbitrary truncated prefix (modelled
as an opaque character list), not the prior contents. -/
inductive DiskContent
  | full (s : Store)
  | torn (written : List Char)
deriving DecidableEq, Repr

/-- Where, if anywhere, `_save_processed_jobs` raises: nowhere (`ok`), in
`open(self.storage_file, 'w')` itself — the prior file is then intact — or
inside `json.dump` after the open already truncated the file, leaving the
torn prefix written so far. -/
inductive PersistResult
  | ok
  | failBeforeOpen
  | failDuringDump (written : List Char)
deriving DecidableEq, Repr

/-- State visible around a `JobFilter`: the in-memory dictionary and the
contents of `processed_jobs.json` on disk. -/
structure JFState where
  mem : Store
  disk : DiskContent
deriving DecidableEq, Repr

/-- `JobFilter._save_processed_jobs` (src/job_filter.py lines 37-44): opens
the storage file with mode `w` (truncating it) and dumps the in-memory
store; *every* exception is caught and only logged, and the method returns
`None` either way.  `res` models where the call failed, if at all; a failure
during the dump leaves the file torn because the open already truncated it. -/
def save_processed_jobs (st : JFState) (res : PersistResult) : JFState × Unit :=
  match res with
  | PersistResult.ok => (⟨st.mem, DiskContent.full st.mem⟩, ())
  | PersistResult.failBeforeOpen => (st, ())
  | PersistResult.failDuringDump w => (⟨st.mem, DiskContent.torn w⟩, ())

/-- `JobFilter.update_job_status` including its final `_save_processed_jobs()`
call.  The Python method returns `None` on every path, modelled as `Unit`. -/
def update_job_status_and_save (st : JFState) (job_url title status : String)
    (explanation : Option String) (now : Nat) (res : PersistResult) : JFState × Unit :=
  if job_url = "" then (st, ())
  else
    let st1 : JFState := ⟨update_job_status st.mem job_url title status explanation now, st.disk⟩
    save_processed_jobs st1 res

/-- Characterisation used in proofs: the loop branch of `get_jobs_to_process`
that appends to `new_jobs`. -/
def isNewJob (store : Store) (j : Job) : Bool :=
  match j.url with
  | none => false
  | some u => if u = "" then false else (Store.find store u).isNone

/-- Characterisation used in proofs: the loop branch of `get_jobs_to_process`
that appends to `retry_jobs`. -/
def isRetryJob (store : Store) (j : Job) : Bool :=
  match j.url with
  | none => false
  | some u =>
    if u = "" then false
    else
      match Store.find store u with
      | none => false
      | some entry =>
        match entry.status with
        | none => false
        | some st => decide (st ≠ "" ∧ st ∉ finalStatuses)

/-- Arguments of one `update_job_status` call: url, title, status, explanation, timestamp. -/
abbrev UpdateArgs := String × String × String × Option String × Nat

/-- A sequence of `update_job_status` calls applied in order. -/
def applyUpdates (s : Store) (calls : List UpdateArgs) : Store :=
  calls.foldl (fun acc a => update_job_status acc a.1 a.2.1 a.2.2.1 a.2.2.2.1 a.2.2.2.2) s

/-- Arguments of one `update_job_status` call on a fixed url: title, status,
explanation, timestamp. -/
abbrev CallArgs := String × String × Option String × Nat

/-- A sequence of `update_job_status` calls on the same url, applied in order. -/
def applyCallsOn (u : String) (s : Store) (calls : List CallArgs) : Store :=
  calls.foldl (fun acc c => update_job_status acc u c.1 c.2.1 c.2.2.1 c.2.2.2) s

/-- The history entry a call appends. -/
def entryOf (c : CallArgs) : HistoryEntry :=
  ⟨c.2.2.2, c.2.1, c.2.2.1⟩

/-- The `explanation` field after a call: the code's `if explanation:` clears
it unless the argument is a non-empty string. -/
def explAfter (e : Option String) : Option String :=
  match e with
  | some x => if x = "" then none else some x
  | none => none

/-! ## Shallow embedding of `src/pdf_generator.py` (class `PdfGenerator`)

`generate_single_page_pdf` drives four external effects per loop iteration:
the Markdown-to-HTML conversion LLM call, the WeasyPrint render, the pypdf
page-count read, and the shortening LLM call.  Each is modelled as an oracle
function indexed by the attempt number `i` (the LLM and the file system are
not assumed deterministic across calls).  Counters and call traces are
carried so the theorems can speak about how many times each oracle ran and
with which arguments. -/

/-- What the fitter hands to `_generate_pdf_from_html`: the HTML body plus the
`name` and `contact` strings extracted once before the loop
(src/pdf_generator.py line 384). -/
structure RenderInput where
  name : String
  contact : String
  htmlBody : String
deriving DecidableEq, Repr

/-- A successfully rendered PDF, identified by the attempt that produced it
and the input it was rendered from. -/
abbrev Artifact := Nat × RenderInput

/-- The external collaborators of `generate_single_page_pdf`, indexed by
attempt number: `_convert_md_body_to_html_body`, the WeasyPrint call inside
`_generate_pdf_from_html` (success flag), `_get_pdf_page_count`, and
`_shorten_resume_with_llm`. -/
structure FitOracles where
  convert : Nat → String → Option String
  renderOk : Nat → RenderInput → Bool
  pageCount : Nat → RenderInput → Option Nat
  shorten : Nat → String → Option String

/-- Which `break` / early return ended `generate_single_page_pdf`; each case
corresponds to one distinct log-and-break site in the source. -/
inductive ExitCause
  | emptyBody
  | convertFailed
  | renderFailed
  | onePageReached
  | pageCountFailed
  | shortenFailed
  | budgetExhausted
  | rangeExhausted
deriving DecidableEq, Repr

/-- Mutable state of the `for i in range(self.max_iterations + 1)` loop.
`gen` is `final_pdf_generated`, `onePage` is `final_pdf_is_one_page`,
`lastSuccessful` is the artifact behind `last_successful_pdf_path`, `disk` is
the file at `output_pdf_path`, and `attemptFiles` are the per-attempt files
written when `save_intermediate_files` is set.  The counters and traces are
proof instrumentation recording each oracle call. -/
structure LoopState where
  gen : Bool
  onePage : Bool
  lastSuccessful : Option Artifact
  disk : Option Artifact
  attemptFiles : List Artifact
  convertCalls : Nat
  renderAttempts : Nat
  shortenCalls : Nat
  renderTrace : List Artifact
  shortenTrace : List (Nat × String)
deriving DecidableEq, Repr

/-- Result of `generate_single_page_pdf`: the Python return value
`final_pdf_generated and final_pdf_is_one_page` plus the final loop state and
the exit cause. -/
structure FitResult where
  final : LoopState
  success : Bool
  cause : ExitCause
deriving DecidableEq, Repr

/-- Leave the loop: the function returns `final_pdf_generated and
final_pdf_is_one_page`. -/
def finishWith (c : ExitCause) (st : LoopState) : FitResult :=
  ⟨st, st.gen && st.onePage, c⟩

def initLoopState : LoopState :=
  ⟨false, false, none, none, [], 0, 0, 0, [], []⟩

/-- The loop body of `generate_single_page_pdf` (src/pdf_generator.py lines
340-423), one constructor level per iteration; `fuel` is the number of
iterations `range` still has to hand out, so `fuel = maxIter + 1 - i`.
Per iteration: convert the Markdown body (`break` on `None`); when not saving
intermediates, delete the file at the output path before rendering (line
377); render (`break` on failure, else record the artifact); read the page
count (`break` returning success on 1, `break` on `None`); if budget remains
ask the shortener (`break` on `None` or falsy empty string, else loop on the
new body), otherwise `break` with `final_pdf_is_one_page = False`. -/
def fitLoop (o : FitOracles) (name contact : String) (maxIter : Nat) (sm : Bool) :
    Nat → Nat → String → LoopState → FitResult
  | _, 0, _, st => finishWith ExitCause.rangeExhausted st
  | i, fuel + 1, body, st =>
    match o.convert i body with
    | none => finishWith ExitCause.convertFailed { st with convertCalls := st.convertCalls + 1 }
    | some html =>
      let ri : RenderInput := ⟨name, contact, html⟩
      let st1 : LoopState :=
        { st with convertCalls := st.convertCalls + 1,
                  disk := if sm then st.disk else none,
                  renderAttempts := st.renderAttempts + 1,
                  renderTrace := st.renderTrace ++ [(i, ri)] }
      if o.renderOk i ri then
        let art : Artifact := (i, ri)
        let st2 : LoopState :=
          { st1 with gen := true,
                     lastSuccessful := some art,
                     disk := if sm then st1.disk else some art,
                     attemptFiles := if sm then st1.attemptFiles ++ [art] else st1.attemptFiles }
        match o.pageCount i ri with
        | some 1 =>
          finishWith ExitCause.onePageReached { st2 with onePage := true, disk := some art }
        | none => finishWith ExitCause.pageCountFailed st2
        | some _ =>
          if i < maxIter then
            let st3 : LoopState :=
              { st2 with shortenCalls := st2.shortenCalls + 1,
                         shortenTrace := st2.shortenTrace ++ [(i, body)] }
            match o.shorten i body with
            | some b =>
              if b = "" then finishWith ExitCause.shortenFailed st3
              else fitLoop o name contact maxIter sm (i + 1) fuel b st3
            | none => finishWith ExitCause.shortenFailed st3
          else
            finishWith ExitCause.budgetExhausted { st2 with onePage := false }
      else finishWith ExitCause.renderFailed st1

/-- `PdfGenerator._extract_header_info` (src/pdf_generator.py lines 77-122):
split on newlines; an H1 first line yields the name; the contact is the next
non-blank non-header line (directly below the name, or below one blank line);
the body is the remaining lines joined, stripped.  Without an H1 the whole
content (stripped) is the body. -/
def extract_header_info (md_content : String) : String × String × String :=
  let lines := pyLines md_content
  if 0 < lines.length ∧ pyStartsWith (lines.getD 0 ("")) ("# ") = true then
    let name := pyStrip (pyDrop (lines.getD 0 ("")) 2)
    let contactOnLine1 : Bool :=
      decide (1 < lines.length) && !(pyStrip (lines.getD 1 ("")) == "") &&
        !(pyStartsWith (pyStrip (lines.getD 1 (""))) ("#"))
    let blankThenLine2 : Bool :=
      decide (2 < lines.length) && (pyStrip (lines.getD 1 ("")) == "")
    let contactOnLine2 : Bool :=
      !(pyStrip (lines.getD 2 ("")) == "") && !(pyStartsWith (pyStrip (lines.getD 2 (""))) ("#"))
    if contactOnLine1 then
      let contact := pyStrip (lines.getD 1 (""))
      let body := if 2 < lines.length then pyJoinLines (lines.drop 2) else ""
      (name, contact, pyStrip body)
    else if blankThenLine2 && contactOnLine2 then
      let contact := pyStrip (lines.getD 2 (""))
      let body := if 3 < lines.length then pyJoinLines (lines.drop 3) else ""
      (name, contact, pyStrip body)
    else
      let body := if 1 < lines.length then pyJoinLines (lines.drop 1) else ""
      (name, "", pyStrip body)
  else
    ("", "", pyStrip md_content)

/-- `PdfGenerator.generate_single_page_pdf` (src/pdf_generator.py lines
304-425) for a draft whose Markdown content was read successfully: extract
the header once, reject an empty stripped body before any oracle call, then
run the fitting loop with `maxIterations + 1` available iterations. -/
def generate_single_page_pdf (o : FitOracles) (mdContent : String) (maxIterations : Nat)
    (saveIntermediate : Bool) : FitResult :=
  let h := extract_header_info mdContent
  if pyStrip h.2.2 = "" then finishWith ExitCause.emptyBody initLoopState
  else fitLoop o h.1 h.2.1 maxIterations saveIntermediate 0 (maxIterations + 1) h.2.2 initLoopState

/-- The shape the shortening-call trace necessarily has: the first call (if
any) receives the extracted body at iteration 0, and each later call receives
exactly the previous call's oracle output at the next iteration — so the
shrink oracle only ever sees the body chain, never the identity block. -/
def shortenChainFrom (o : FitOracles) : Nat → String → List (Nat × String) → Prop
  | _, _, [] => True
  | i, b, [e] => e.1 = i ∧ e.2 = b
  | i, b, e :: e2 :: rest =>
    e.1 = i ∧ e.2 = b ∧ ∃ b2, o.shorten i b = some b2 ∧ shortenChainFrom o (i + 1) b2 (e2 :: rest)

/-- Conclusion bundle of the loop-invariant lemma `fitLoop_master` about a
run `r` of the fitting loop started at iteration `i` with `fuel` iterations
left, body `body` and loop state `st`: oracle-call bounds; a successful
return carries a one-page artifact at the output path; a render failure
returns `False` immediately (the failed attempt consumed no shrink call) and,
in the default single-output-path mode, leaves no artifact on disk; every
successful artifact is on disk as an attempt file when intermediates are
saved; every render received the fixed identity block; and the shortening
trace is an oracle-output chain over bodies only. -/
def MasterConcl (o : FitOracles) (name contact : String) (sm : Bool) (fuel i : Nat)
    (body : String) (st : LoopState) (r : FitResult) : Prop :=
  (r.final.renderAttempts ≤ st.renderAttempts + fuel ∧
    r.final.convertCalls ≤ st.convertCalls + fuel ∧
    r.final.shortenCalls ≤ st.shortenCalls + fuel) ∧
  (r.success = true →
    ∃ a : Artifact, r.final.disk = some a ∧ r.final.lastSuccessful = some a ∧
      o.pageCount a.1 a.2 = some 1) ∧
  (r.cause = ExitCause.renderFailed →
    r.success = false ∧ (sm = false → r.final.disk = none) ∧
    r.final.renderAttempts = r.final.shortenCalls + 1) ∧
  (∀ a : Artifact, r.final.lastSuccessful = some a → sm = true → a ∈ r.final.attemptFiles) ∧
  (∀ e ∈ r.final.renderTrace, (e : Artifact).2.name = name ∧ e.2.contact = contact) ∧
  (∃ delta, r.final.shortenTrace = st.shortenTrace ++ delta ∧ shortenChainFrom o i body delta)

/-- Python truthiness of a job stub's `url` value: present and non-empty. -/
def hasRealUrl (j : Job) : Bool :=
  match j.url with
  | none => false
  | some u => !(u == "")

/-- Whether a stored record's `status` makes `get_jobs_to_process` retry it:
present, non-empty, and not a final status. -/
def retryStatus (r : JobRecord) : Bool :=
  match r.status with
  | none => false
  | some st => decide (st ≠ "" ∧ st ∉ finalStatuses)

/-! ## Concrete data for witnesses and counterexamples -/

def jobU : Job := ⟨some ("u"), some ("T")⟩

def jobV : Job := ⟨some ("v"), some ("S")⟩

def recRelevant : JobRecord := ⟨some ("T"), some ("Relevant"), none, some [], some 0⟩

def callsW : List CallArgs :=
  [(("T"), ("Relevant"), some ("fits"), 0), (("T"), ("Error_PdfGeneration"), none, 1)]

/-- A sample Markdown draft: H1 name, contact line, one-line body. -/
def mdSample : String := "# Jane Doe\njane at example dot com\n- did things"

/-- Oracle for C2 and C5-style runs: conversion and shortening are identity,
rendering always succeeds, every artifact measures two pages. -/
def oracleTwoPages : FitOracles :=
  ⟨fun _ s => some s, fun _ _ => true, fun _ _ => some 2, fun _ s => some s⟩

/-- Oracle for C4: the very first render already measures one page. -/
def oracleOnePage : FitOracles :=
  ⟨fun _ s => some s, fun _ _ => true, fun _ _ => some 1, fun _ s => some s⟩

/-- Oracle for C6: rendering succeeds on attempt 0 (two pages) and fails on
every later attempt. -/
def oracleRenderFailsAfter0 : FitOracles :=
  ⟨fun _ s => some s, fun i _ => i == 0, fun _ _ => some 2, fun _ s => some s⟩

/-! ## One-iteration step lemmas for the fitting loop -/

theorem fitLoop_step_continue (o : FitOracles) (name contact : String) (maxIter : Nat)
    (sm : Bool) (i fuel : Nat) (body : String) (st : LoopState) (h : String) (n : Nat)
    (b : String)
    (hh : o.convert i body = some h)
    (hr : o.renderOk i ⟨name, contact, h⟩ = true)
    (hn : o.pageCount i ⟨name, contact, h⟩ = some n) (hn1 : n ≠ 1)
    (hi : i < maxIter)
    (hs : o.shorten i body = some b) (hb : b ≠ "") :
    fitLoop o name contact maxIter sm i (fuel + 1) body st =
      fitLoop o name contact maxIter sm (i + 1) fuel b
        ⟨true, st.onePage, some (i, ⟨name, contact, h⟩),
         (if sm then st.disk else some (i, ⟨name, contact, h⟩)),
         (if sm then st.attemptFiles ++ [(i, ⟨name, contact, h⟩)] else st.attemptFiles),
         st.convertCalls + 1, st.renderAttempts + 1, st.shortenCalls + 1,
         st.renderTrace ++ [(i, ⟨name, contact, h⟩)], st.shortenTrace ++ [(i, body)]⟩ := by
  rcases n with _ | n1
  · cases sm <;> simp [fitLoop, hh, hr, hn, hi, hs, hb]
  · rcases n1 with _ | n2
    · exact absurd rfl hn1
    · cases sm <;> simp [fitLoop, hh, hr, hn, hi, hs, hb]

theorem fitLoop_step_budget (o : FitOracles) (name contact : String) (maxIter : Nat)
    (sm : Bool) (i fuel : Nat) (body : String) (st : LoopState) (h : String) (n : Nat)
    (hh : o.convert i body = some h)
    (hr : o.renderOk i ⟨name, contact, h⟩ = true)
    (hn : o.pageCount i ⟨name, contact, h⟩ = some n) (hn1 : n ≠ 1)
    (hni : ¬ i < maxIter) :
    fitLoop o name contact maxIter sm i (fuel + 1) body st =
      finishWith ExitCause.budgetExhausted
        ⟨true, false, some (i, ⟨name, contact, h⟩),
         (if sm then st.disk else some (i, ⟨name, contact, h⟩)),
         (if sm then st.attemptFiles ++ [(i, ⟨name, contact, h⟩)] else st.attemptFiles),
         st.convertCalls + 1, st.renderAttempts + 1, st.shortenCalls,
         st.renderTrace ++ [(i, ⟨name, contact, h⟩)], st.shortenTrace⟩ := by
  rcases n with _ | n1
  · cases sm <;> simp [fitLoop, hh, hr, hn, hni]
  · rcases n1 with _ | n2
    · exact absurd rfl hn1
    · cases sm <;> simp [fitLoop, hh, hr, hn, hni]

theorem fitLoop_step_onePage (o : FitOracles) (name contact : String) (maxIter : Nat)
    (sm : Bool) (i fuel : Nat) (body : String) (st : LoopState) (h : String)
    (hh : o.convert i body = some h)
    (hr : o.renderOk i ⟨name, contact, h⟩ = true)
    (hn : o.pageCount i ⟨name, contact, h⟩ = some 1) :
    fitLoop o name contact maxIter sm i (fuel + 1) body st =
      finishWith ExitCause.onePageReached
        ⟨true, true, some (i, ⟨name, contact, h⟩), some (i, ⟨name, contact, h⟩),
         (if sm then st.attemptFiles ++ [(i, ⟨name, contact, h⟩)] else st.attemptFiles),
         st.convertCalls + 1, st.renderAttempts + 1, st.shortenCalls,
         st.renderTrace ++ [(i, ⟨name, contact, h⟩)], st.shortenTrace⟩ := by
  cases sm <;> simp [fitLoop, hh, hr, hn]

theorem fitLoop_step_renderFail (o : FitOracles) (name contact : String) (maxIter : Nat)
    (sm : Bool) (i fuel : Nat) (body : String) (st : LoopState) (h : String)
    (hh : o.convert i body = some h)
    (hr : o.renderOk i ⟨name, contact, h⟩ = false) :
    fitLoop o name contact maxIter sm i (fuel + 1) body st =
      finishWith ExitCause.renderFailed
        ⟨st.gen, st.onePage, st.lastSuccessful, (if sm then st.disk else none),
         st.attemptFiles, st.convertCalls + 1, st.renderAttempts + 1, st.shortenCalls,
         st.renderTrace ++ [(i, ⟨name, contact, h⟩)], st.shortenTrace⟩ := by
  cases sm <;> simp [fitLoop, hh, hr]

theorem fitLoop_step_convertFail (o : FitOracles) (name contact : String) (maxIter : Nat)
    (sm : Bool) (i fuel : Nat) (body : String) (st : LoopState)
    (hh : o.convert i body = none) :
    fitLoop o name contact maxIter sm i (fuel + 1) body st =
      finishWith ExitCause.convertFailed { st with convertCalls := st.convertCalls + 1 } := by
  simp [fitLoop, hh]

theorem fitLoop_step_pcFail (o : FitOracles) (name contact : String) (maxIter : Nat)
    (sm : Bool) (i fuel : Nat) (body : String) (st : LoopState) (h : String)
    (hh : o.convert i body = some h)
    (hr : o.renderOk i ⟨name, contact, h⟩ = true)
    (hn : o.pageCount i ⟨name, contact, h⟩ = none) :
    fitLoop o name contact maxIter sm i (fuel + 1) body st =
      finishWith ExitCause.pageCountFailed
        ⟨true, st.onePage, some (i, ⟨name, contact, h⟩),
         (if sm then st.disk else some (i, ⟨name, contact, h⟩)),
         (if sm then st.attemptFiles ++ [(i, ⟨name, contact, h⟩)] else st.attemptFiles),
         st.convertCalls + 1, st.renderAttempts + 1, st.shortenCalls,
         st.renderTrace ++ [(i, ⟨name, contact, h⟩)], st.shortenTrace⟩ := by
  cases sm <;> simp [fitLoop, hh, hr, hn]

theorem fitLoop_step_shortenFail (o : FitOracles) (name contact : String) (maxIter : Nat)
    (sm : Bool) (i fuel : Nat) (body : String) (st : LoopState) (h : String) (n : Nat)
    (hh : o.convert i body = some h)
    (hr : o.renderOk i ⟨name, contact, h⟩ = true)
    (hn : o.pageCount i ⟨name, contact, h⟩ = some n) (hn1 : n ≠ 1)
    (hi : i < maxIter)
    (hs : o.shorten i body = none ∨ o.shorten i body = some ("")) :
    fitLoop o name contact maxIter sm i (fuel + 1) body st =
      finishWith ExitCause.shortenFailed
        ⟨true, st.onePage, some (i, ⟨name, contact, h⟩),
         (if sm then st.disk else some (i, ⟨name, contact, h⟩)),
         (if sm then st.attemptFiles ++ [(i, ⟨name, contact, h⟩)] else st.attemptFiles),
         st.convertCalls + 1, st.renderAttempts + 1, st.shortenCalls + 1,
         st.renderTrace ++ [(i, ⟨name, contact, h⟩)], st.shortenTrace ++ [(i, body)]⟩ := by
  rcases n with _ | n1
  · rcases hs with hs | hs <;> cases sm <;> simp [fitLoop, hh, hr, hn, hi, hs]
  · rcases n1 with _ | n2
    · exact absurd rfl hn1
    · rcases hs with hs | hs <;> cases sm <;> simp [fitLoop, hh, hr, hn, hi, hs]

/-! ## Invariant lemmas for the fitting loop -/

theorem fitLoop_master (o : FitOracles) (name contact : String) (maxIter : Nat) (sm : Bool) :
    ∀ (fuel i : Nat) (body : String) (st : LoopState),
      st.onePage = false →
      st.renderAttempts = st.shortenCalls →
      (∀ a : Artifact, st.lastSuccessful = some a → sm = true → a ∈ st.attemptFiles) →
      (∀ e ∈ st.renderTrace, (e : Artifact).2.name = name ∧ e.2.contact = contact) →
      MasterConcl o name contact sm fuel i body st
        (fitLoop o name contact maxIter sm i fuel body st) := by
  intro fuel
  induction fuel with
  | zero =>
    intro i body st h1 h2 h3 h4
    simp only [MasterConcl, fitLoop, finishWith]
    refine ⟨by omega, ?_, ?_, h3, h4, [], by simp, trivial⟩
    · intro hs; rw [h1] at hs; simp at hs
    · intro hc; simp at hc
  | succ f ih =>
    intro i body st h1 h2 h3 h4
    have memE : ∀ h : String, ∀ e : Artifact, e ∈ st.renderTrace ++ [(i, ⟨name, contact, h⟩)] →
        e.2.name = name ∧ e.2.contact = contact := by
      intro h e he
      rcases List.mem_append.mp he with he | he
      · exact h4 e he
      · rw [List.mem_singleton] at he; subst he; exact ⟨rfl, rfl⟩
    rcases hc : o.convert i body with _ | h
    · rw [fitLoop_step_convertFail o name contact maxIter sm i f body st hc]
      simp only [MasterConcl, finishWith]
      refine ⟨by omega, ?_, ?_, h3, h4, [], by simp, trivial⟩
      · intro hs; rw [h1] at hs; simp at hs
      · intro hcc; simp at hcc
    · cases hr : o.renderOk i ⟨name, contact, h⟩ with
      | false =>
        rw [fitLoop_step_renderFail o name contact maxIter sm i f body st h hc hr]
        simp only [MasterConcl, finishWith]
        refine ⟨by omega, ?_, ?_, h3, memE h, [], by simp, trivial⟩
        · intro hs; rw [h1] at hs; simp at hs
        · intro _
          refine ⟨by rw [h1]; simp, ?_, by omega⟩
          intro hsm; rw [hsm]; simp
      | true =>
        rcases hn : o.pageCount i ⟨name, contact, h⟩ with _ | n
        · rw [fitLoop_step_pcFail o name contact maxIter sm i f body st h hc hr hn]
          simp only [MasterConcl, finishWith]
          refine ⟨by omega, ?_, ?_, ?_, memE h, [], by simp, trivial⟩
          · intro hs; rw [h1] at hs; simp at hs
          · intro hcc; simp at hcc
          · intro a ha hsm
            simp only [Option.some_inj] at ha
            subst ha
            rw [hsm]
            simp
        · by_cases hn1 : n = 1
          · subst hn1
            rw [fitLoop_step_onePage o name contact maxIter sm i f body st h hc hr hn]
            simp only [MasterConcl, finishWith]
            refine ⟨by omega, ?_, ?_, ?_, memE h, [], by simp, trivial⟩
            · intro _; exact ⟨(i, ⟨name, contact, h⟩), rfl, rfl, hn⟩
            · intro hcc; simp at hcc
            · intro a ha hsm
              simp only [Option.some_inj] at ha
              subst ha
              rw [hsm]
              simp
          · by_cases hi : i < maxIter
            · rcases hs : o.shorten i body with _ | b
              · rw [fitLoop_step_shortenFail o name contact maxIter sm i f body st h n hc hr hn
                  hn1 hi (Or.inl hs)]
                simp only [MasterConcl, finishWith]
                refine ⟨by omega, ?_, ?_, ?_, memE h, [(i, body)], by simp, ⟨rfl, rfl⟩⟩
                · intro hss; rw [h1] at hss; simp at hss
                · intro hcc; simp at hcc
                · intro a ha hsm
                  simp only [Option.some_inj] at ha
                  subst ha
                  rw [hsm]
                  simp
              · by_cases hb : b = ""
                · subst hb
                  rw [fitLoop_step_shortenFail o name contact maxIter sm i f body st h n hc hr hn
                    hn1 hi (Or.inr hs)]
                  simp only [MasterConcl, finishWith]
                  refine ⟨by omega, ?_, ?_, ?_, memE h, [(i, body)], by simp, ⟨rfl, rfl⟩⟩
                  · intro hss; rw [h1] at hss; simp at hss
                  · intro hcc; simp at hcc
                  · intro a ha hsm
                    simp only [Option.some_inj] at ha
                    subst ha
                    rw [hsm]
                    simp
                · rw [fitLoop_step_continue o name contact maxIter sm i f body st h n b hc hr hn
                    hn1 hi hs hb]
                  have ihh := ih (i + 1) b
                    ⟨true, st.onePage, some (i, ⟨name, contact, h⟩),
                     (if sm then st.disk else some (i, ⟨name, contact, h⟩)),
                     (if sm then st.attemptFiles ++ [(i, ⟨name, contact, h⟩)]
                      else st.attemptFiles),
                     st.convertCalls + 1, st.renderAttempts + 1, st.shortenCalls + 1,
                     st.renderTrace ++ [(i, ⟨name, contact, h⟩)], st.shortenTrace ++ [(i, body)]⟩
                    h1 (by simp [h2]) ?_ (memE h)
                  · obtain ⟨hbnd, hsucc, hrf, hD, hE, delta2, htr, hchain⟩ := ihh
                    simp only [MasterConcl]
                    refine ⟨?_, hsucc, hrf, hD, hE, (i, body) :: delta2, ?_, ?_⟩
                    · simp only [] at hbnd; exact ⟨by omega, by omega, by omega⟩
                    · rw [htr]; simp
                    · cases delta2 with
                      | nil => exact ⟨rfl, rfl⟩
                      | cons e2 rest => exact ⟨rfl, rfl, b, hs, hchain⟩
                  · intro a ha hsm
                    simp only [Option.some_inj] at ha
                    subst ha
                    rw [hsm]
                    simp
            · rw [fitLoop_step_budget o name contact maxIter sm i f body st h n hc hr hn hn1 hi]
              simp only [MasterConcl, finishWith]
              refine ⟨by omega, ?_, ?_, ?_, memE h, [], by simp, trivial⟩
              · intro hss; simp at hss
              · intro hcc; simp at hcc
              · intro a ha hsm
                simp only [Option.some_inj] at ha
                subst ha
                rw [hsm]
                simp

theorem fitLoop_noop_run (o : FitOracles) (name contact : String) (maxIter : Nat) (sm : Bool)
    (hconv : ∀ i s, ∃ h, o.convert i s = some h)
    (hrender : ∀ i ri, o.renderOk i ri = true)
    (hpc : ∀ i ri, ∃ n, o.pageCount i ri = some n ∧ n ≠ 1)
    (hshort : ∀ i s, o.shorten i s = some s) :
    ∀ (fuel i : Nat) (body : String) (st : LoopState), i + fuel = maxIter + 1 → 0 < fuel →
      body ≠ "" →
      (fitLoop o name contact maxIter sm i fuel body st).success = false ∧
      (fitLoop o name contact maxIter sm i fuel body st).final.renderAttempts =
          st.renderAttempts + fuel ∧
      (fitLoop o name contact maxIter sm i fuel body st).final.shortenCalls =
          st.shortenCalls + (fuel - 1) ∧
      (fitLoop o name contact maxIter sm i fuel body st).final.convertCalls =
          st.convertCalls + fuel := by
  intro fuel
  induction fuel with
  | zero => intro i body st _ h0 _; exact absurd h0 (by omega)
  | succ f ih =>
    intro i body st hsum _ hb
    obtain ⟨h, hh⟩ := hconv i body
    obtain ⟨n, hn, hn1⟩ := hpc i ⟨name, contact, h⟩
    by_cases hf : f = 0
    · subst hf
      have hni : ¬ i < maxIter := by omega
      rw [fitLoop_step_budget o name contact maxIter sm i 0 body st h n hh
        (hrender i ⟨name, contact, h⟩) hn hn1 hni]
      simp [finishWith]
    · have hi : i < maxIter := by omega
      rw [fitLoop_step_continue o name contact maxIter sm i f body st h n body hh
        (hrender i ⟨name, contact, h⟩) hn hn1 hi (hshort i body) hb]
      obtain ⟨hs, hra, hsc, hcc⟩ := ih (i + 1) body
        ⟨true, st.onePage, some (i, ⟨name, contact, h⟩),
         (if sm then st.disk else some (i, ⟨name, contact, h⟩)),
         (if sm then st.attemptFiles ++ [(i, ⟨name, contact, h⟩)] else st.attemptFiles),
         st.convertCalls + 1, st.renderAttempts + 1, st.shortenCalls + 1,
         st.renderTrace ++ [(i, ⟨name, contact, h⟩)], st.shortenTrace ++ [(i, body)]⟩
        (by omega) (by omega) hb
      refine ⟨hs, ?_, ?_, ?_⟩
      · rw [hra]; show st.renderAttempts + 1 + f = st.renderAttempts + (f + 1); omega
      · rw [hsc]
        show st.shortenCalls + 1 + (f - 1) = st.shortenCalls + (f + 1 - 1)
        omega
      · rw [hcc]; show st.convertCalls + 1 + f = st.convertCalls + (f + 1); omega

/-! ## Fitter claim theorems -/

/-- C2: with a non-empty draft body, oracles whose conversion and rendering
always succeed, whose page counts are measurable and never 1, and whose
shortening always returns its input unchanged (a non-empty no-op),
`generate_single_page_pdf` with `max_iterations = N` performs exactly `N + 1`
render attempts and `N` shortening calls (each no-op rewrite consumes one
iteration of the budget) and returns `False`; moreover, for every oracle
whatsoever the loop terminates within `N + 1` render attempts and `N + 1`
conversion and shortening calls. -/
theorem c2_bounded_termination (o : FitOracles) (md : String) (N : Nat) (sm : Bool)
    (hbody : pyStrip (extract_header_info md).2.2 ≠ "")
    (hconv : ∀ i s, ∃ h, o.convert i s = some h)
    (hrender : ∀ i ri, o.renderOk i ri = true)
    (hpc : ∀ i ri, ∃ n, o.pageCount i ri = some n ∧ n ≠ 1)
    (hshort : ∀ i s, o.shorten i s = some s) :
    (generate_single_page_pdf o md N sm).final.renderAttempts = N + 1 ∧
    (generate_single_page_pdf o md N sm).final.shortenCalls = N ∧
    (generate_single_page_pdf o md N sm).success = false ∧
    (∀ (o2 : FitOracles) (md2 : String) (N2 : Nat) (sm2 : Bool),
      (generate_single_page_pdf o2 md2 N2 sm2).final.renderAttempts ≤ N2 + 1 ∧
      (generate_single_page_pdf o2 md2 N2 sm2).final.convertCalls ≤ N2 + 1 ∧
      (generate_single_page_pdf o2 md2 N2 sm2).final.shortenCalls ≤ N2 + 1) := by
  have hb : (extract_header_info md).2.2 ≠ "" := by
    intro he; exact hbody (by rw [he]; decide)
  obtain ⟨hs, hra, hsc, hcc⟩ := fitLoop_noop_run o (extract_header_info md).1
    (extract_header_info md).2.1 N sm hconv hrender hpc hshort (N + 1) 0
    (extract_header_info md).2.2 initLoopState (by omega) (by omega) hb
  refine ⟨?_, ?_, ?_, ?_⟩
  · simp only [generate_single_page_pdf]
    rw [if_neg hbody, hra]
    show 0 + (N + 1) = N + 1
    omega
  · simp only [generate_single_page_pdf]
    rw [if_neg hbody, hsc]
    show 0 + (N + 1 - 1) = N
    omega
  · simp only [generate_single_page_pdf]
    rw [if_neg hbody, hs]
  · intro o2 md2 N2 sm2
    by_cases hemp : pyStrip (extract_header_info md2).2.2 = ""
    · simp [generate_single_page_pdf, hemp, finishWith, initLoopState]
    · have hm := fitLoop_master o2 (extract_header_info md2).1 (extract_header_info md2).2.1
        N2 sm2 (N2 + 1) 0 (extract_header_info md2).2.2 initLoopState rfl rfl
        (fun a ha => by simp [initLoopState] at ha) (by simp [initLoopState])
      simp only [MasterConcl] at hm
      obtain ⟨⟨b1, b2, b3⟩, _⟩ := hm
      simp only [generate_single_page_pdf]
      rw [if_neg hemp]
      refine ⟨le_trans b1 ?_, le_trans b2 ?_, le_trans b3 ?_⟩ <;>
        · show 0 + (N2 + 1) ≤ N2 + 1
          omega

/-- Witness for C2: identity conversion/shortening oracles, two-page renders,
`max_iterations = 2` on a three-line sample draft: 3 render attempts, 2
shortening calls, overall failure. -/
theorem c2_bounded_termination_witness :
    (generate_single_page_pdf oracleTwoPages mdSample 2 false).final.renderAttempts = 2 + 1 ∧
    (generate_single_page_pdf oracleTwoPages mdSample 2 false).final.shortenCalls = 2 ∧
    (generate_single_page_pdf oracleTwoPages mdSample 2 false).success = false := by
  have h := c2_bounded_termination oracleTwoPages mdSample 2 false (by decide)
    (fun i s => ⟨s, rfl⟩) (fun i ri => rfl) (fun i ri => ⟨2, rfl, by decide⟩) (fun i s => rfl)
  exact ⟨h.1, h.2.1, h.2.2.1⟩

/-- C4: when the first render of a non-empty draft already measures exactly
one page, `generate_single_page_pdf` returns `True` after exactly one render
attempt and zero shortening calls; and for every run of the fitter, a `True`
result implies the artifact at the output path is the last successfully
produced one and measures exactly one page. -/
theorem c4_fitter_convergence (o : FitOracles) (md : String) (N : Nat) (sm : Bool)
    (hstr : String)
    (hbody : pyStrip (extract_header_info md).2.2 ≠ "")
    (hconv0 : o.convert 0 (extract_header_info md).2.2 = some hstr)
    (hrender0 : o.renderOk 0
      ⟨(extract_header_info md).1, (extract_header_info md).2.1, hstr⟩ = true)
    (hpc0 : o.pageCount 0
      ⟨(extract_header_info md).1, (extract_header_info md).2.1, hstr⟩ = some 1) :
    (generate_single_page_pdf o md N sm).success = true ∧
    (generate_single_page_pdf o md N sm).final.renderAttempts = 1 ∧
    (generate_single_page_pdf o md N sm).final.shortenCalls = 0 ∧
    (∀ (o2 : FitOracles) (md2 : String) (N2 : Nat) (sm2 : Bool),
      (generate_single_page_pdf o2 md2 N2 sm2).success = true →
      ∃ a : Artifact, (generate_single_page_pdf o2 md2 N2 sm2).final.disk = some a ∧
        (generate_single_page_pdf o2 md2 N2 sm2).final.lastSuccessful = some a ∧
        o2.pageCount a.1 a.2 = some 1) := by
  refine ⟨?_, ?_, ?_, ?_⟩
  · simp only [generate_single_page_pdf]
    rw [if_neg hbody, fitLoop_step_onePage o (extract_header_info md).1
      (extract_header_info md).2.1 N sm 0 N (extract_header_info md).2.2 initLoopState hstr
      hconv0 hrender0 hpc0]
    simp [finishWith]
  · simp only [generate_single_page_pdf]
    rw [if_neg hbody, fitLoop_step_onePage o (extract_header_info md).1
      (extract_header_info md).2.1 N sm 0 N (extract_header_info md).2.2 initLoopState hstr
      hconv0 hrender0 hpc0]
    simp [finishWith, initLoopState]
  · simp only [generate_single_page_pdf]
    rw [if_neg hbody, fitLoop_step_onePage o (extract_header_info md).1
      (extract_header_info md).2.1 N sm 0 N (extract_header_info md).2.2 initLoopState hstr
      hconv0 hrender0 hpc0]
    simp [finishWith, initLoopState]
  · intro o2 md2 N2 sm2 hsucc
    by_cases hemp : pyStrip (extract_header_info md2).2.2 = ""
    · rw [generate_single_page_pdf] at hsucc
      simp [hemp, finishWith, initLoopState] at hsucc
    · have hm := fitLoop_master o2 (extract_header_info md2).1 (extract_header_info md2).2.1
        N2 sm2 (N2 + 1) 0 (extract_header_info md2).2.2 initLoopState rfl rfl
        (fun a ha => by simp [initLoopState] at ha) (by simp [initLoopState])
      simp only [MasterConcl] at hm
      rw [generate_single_page_pdf] at hsucc ⊢
      rw [if_neg hemp] at hsucc ⊢
      exact hm.2.1 hsucc

/-- Witness for C4: a one-page-on-first-render oracle on the sample draft
yields success in one render attempt with no shortening calls. -/
theorem c4_fitter_convergence_witness :
    (generate_single_page_pdf oracleOnePage mdSample 5 false).success = true ∧
    (generate_single_page_pdf oracleOnePage mdSample 5 false).final.renderAttempts = 1 ∧
    (generate_single_page_pdf oracleOnePage mdSample 5 false).final.shortenCalls = 0 := by
  have h := c4_fitter_convergence oracleOnePage mdSample 5 false ("- did things")
    (by decide) (by decide) rfl rfl
  exact ⟨h.1, h.2.1, h.2.2.1⟩

/-- C6 counterexample: with the default `save_intermediate_files = False`, a
run whose first render succeeds (two pages) and whose second render fails
ends with `False` and an *empty* output path — the attempt-0 artifact was
produced (`lastSuccessful` is set) but was deleted from the output path
before the failed attempt, so the previously rendered artifact *is*
discarded, contrary to the claim. -/
theorem c6_counterexample :
    (generate_single_page_pdf oracleRenderFailsAfter0 mdSample 1 false).success = false ∧
    (generate_single_page_pdf oracleRenderFailsAfter0 mdSample 1
        false).final.lastSuccessful.isSome = true ∧
    (generate_single_page_pdf oracleRenderFailsAfter0 mdSample 1 false).final.disk = none ∧
    (generate_single_page_pdf oracleRenderFailsAfter0 mdSample 1
        false).final.renderAttempts = 2 := by
  decide

/-- C6 (amended): when the fitting loop stops because a render attempt
failed, it aborts immediately (the failed attempt consumed no shortening
call: render attempts equal shortening calls plus one) and returns `False`;
the artifact of the last successful attempt survives only as a per-attempt
intermediate file when `save_intermediate_files` is set, while in the default
single-output-path mode the output path holds no artifact, the previous one
having been deleted before the failed attempt. -/
theorem c6_render_failure_abort (o : FitOracles) (md : String) (N : Nat) (sm : Bool)
    (hc : (generate_single_page_pdf o md N sm).cause = ExitCause.renderFailed) :
    (generate_single_page_pdf o md N sm).success = false ∧
    (sm = false → (generate_single_page_pdf o md N sm).final.disk = none) ∧
    (generate_single_page_pdf o md N sm).final.renderAttempts =
        (generate_single_page_pdf o md N sm).final.shortenCalls + 1 ∧
    (∀ a : Artifact, (generate_single_page_pdf o md N sm).final.lastSuccessful = some a →
      sm = true → a ∈ (generate_single_page_pdf o md N sm).final.attemptFiles) := by
  by_cases hemp : pyStrip (extract_header_info md).2.2 = ""
  · rw [generate_single_page_pdf] at hc
    simp [hemp, finishWith] at hc
  · have hm := fitLoop_master o (extract_header_info md).1 (extract_header_info md).2.1
      N sm (N + 1) 0 (extract_header_info md).2.2 initLoopState rfl rfl
      (fun a ha => by simp [initLoopState] at ha) (by simp [initLoopState])
    simp only [MasterConcl] at hm
    rw [generate_single_page_pdf] at hc ⊢
    rw [if_neg hemp] at hc ⊢
    obtain ⟨hs, hd, hra⟩ := hm.2.2.1 hc
    exact ⟨hs, hd, hra, hm.2.2.2.1⟩

/-- Witness for C6 (amended): the attempt-1 render failure of the
counterexample oracle satisfies the amended guarantees: immediate abort with
`False`, no shrink call for the failed attempt, and (default mode) an empty
output path. -/
theorem c6_render_failure_abort_witness :
    (generate_single_page_pdf oracleRenderFailsAfter0 mdSample 1 false).success = false ∧
    (generate_single_page_pdf oracleRenderFailsAfter0 mdSample 1 false).final.disk = none ∧
    (generate_single_page_pdf oracleRenderFailsAfter0 mdSample 1
        false).final.renderAttempts =
      (generate_single_page_pdf oracleRenderFailsAfter0 mdSample 1
        false).final.shortenCalls + 1 := by
  have h := c6_render_failure_abort oracleRenderFailsAfter0 mdSample 1 false (by decide)
  exact ⟨h.1, h.2.1 rfl, h.2.2.1⟩

/-- C8: in every run of `generate_single_page_pdf`, every render call
receives exactly the name and contact extracted from the draft before the
loop (the identity block is reproduced in every rendered artifact), and the
shortening oracle is only ever applied to the body chain: its first input is
the extracted body and each subsequent input is its own previous output —
the identity block is never passed to it. -/
theorem c8_identity_block_immutable (o : FitOracles) (md : String) (N : Nat) (sm : Bool) :
    (∀ e ∈ (generate_single_page_pdf o md N sm).final.renderTrace,
      (e : Artifact).2.name = (extract_header_info md).1 ∧
      e.2.contact = (extract_header_info md).2.1) ∧
    shortenChainFrom o 0 (extract_header_info md).2.2
      (generate_single_page_pdf o md N sm).final.shortenTrace := by
  by_cases hemp : pyStrip (extract_header_info md).2.2 = ""
  · constructor
    · intro e he
      rw [generate_single_page_pdf] at he
      simp [hemp, finishWith, initLoopState] at he
    · rw [generate_single_page_pdf]
      simp only [hemp, if_pos]
      exact trivial
  · have hm := fitLoop_master o (extract_header_info md).1 (extract_header_info md).2.1
      N sm (N + 1) 0 (extract_header_info md).2.2 initLoopState rfl rfl
      (fun a ha => by simp [initLoopState] at ha) (by simp [initLoopState])
    simp only [MasterConcl] at hm
    obtain ⟨_, _, _, _, hE, delta, htr, hchain⟩ := hm
    rw [generate_single_page_pdf]
    rw [if_neg hemp]
    refine ⟨hE, ?_⟩
    rw [htr]
    show shortenChainFrom o 0 (extract_header_info md).2.2 ([] ++ delta)
    rw [List.nil_append]
    exact hchain

/-! ## Lemmas about the state store -/

theorem find_insert_self (s : Store) (u : String) (r : JobRecord) :
    Store.find (Store.insert s u r) u = some r := by
  induction s with
  | nil => simp [Store.insert, Store.find]
  | cons kv rest ih =>
    by_cases h : kv.1 = u
    · simp [Store.insert, Store.find, h]
    · simp [Store.insert, Store.find, h, ih]

theorem find_insert_ne (s : Store) (w u : String) (r : JobRecord) (h : w ≠ u) :
    Store.find (Store.insert s w r) u = Store.find s u := by
  induction s with
  | nil => simp [Store.insert, Store.find, h]
  | cons kv rest ih =>
    by_cases hk : kv.1 = w
    · simp [Store.insert, Store.find, hk, h]
    · by_cases hu : kv.1 = u
      · simp [Store.insert, Store.find, hk, hu, Ne.symm h]
      · simp [Store.insert, Store.find, hk, hu, ih]

theorem applyStatus_fields (r : JobRecord) (stat : String) (e : Option String) (now : Nat) :
    (applyStatus r stat e now).status = some stat ∧
    (applyStatus r stat e now).explanation = explAfter e ∧
    (applyStatus r stat e now).last_updated = some now ∧
    (applyStatus r stat e now).history = some (r.history.getD [] ++ [⟨now, stat, e⟩]) ∧
    (applyStatus r stat e now).title = r.title := by
  cases e with
  | none => simp [applyStatus, explAfter]
  | some x => by_cases hx : x = "" <;> simp [applyStatus, explAfter, hx]

theorem recordBase_fields (found : Option JobRecord) (t : String) :
    (recordBase found t).history = (match found with | none => some [] | some r => r.history) ∧
    (recordBase found t).status = (match found with | none => none | some r => r.status) := by
  cases found with
  | none => simp [recordBase, initialRecord]
  | some r =>
    by_cases h : r.title = none ∨ r.title = some ""
    · simp [recordBase, h]
    · simp [recordBase, h]

theorem find_update_self (s : Store) (u t stat : String) (e : Option String) (n : Nat)
    (hu : u ≠ "") :
    Store.find (update_job_status s u t stat e n) u =
      some (applyStatus (recordBase (Store.find s u) t) stat e n) := by
  unfold update_job_status
  simp [hu, find_insert_self]

theorem find_update_ne (s : Store) (v u t stat : String) (e : Option String) (n : Nat)
    (h : v ≠ u) :
    Store.find (update_job_status s v t stat e n) u = Store.find s u := by
  unfold update_job_status
  by_cases hv : v = ""
  · simp [hv]
  · simp [hv, find_insert_ne _ _ _ _ h]

theorem applyUpdates_find_ne (u : String) :
    ∀ (calls : List UpdateArgs) (s : Store), (∀ a ∈ calls, a.1 ≠ u) →
      Store.find (applyUpdates s calls) u = Store.find s u := by
  intro calls
  induction calls with
  | nil => intro s _; rfl
  | cons c rest ih =>
    intro s h
    have hc : c.1 ≠ u := h c (List.mem_cons_self c rest)
    have hr : ∀ a ∈ rest, a.1 ≠ u := fun a ha => h a (List.mem_cons_of_mem c ha)
    calc Store.find (applyUpdates (update_job_status s c.1 c.2.1 c.2.2.1 c.2.2.2.1 c.2.2.2.2) rest) u
        = Store.find (update_job_status s c.1 c.2.1 c.2.2.1 c.2.2.2.1 c.2.2.2.2) u := ih _ hr
      _ = Store.find s u := find_update_ne _ _ _ _ _ _ _ hc

theorem get_eq_filter (store : Store) (l : List Job) :
    get_jobs_to_process store l = (l.filter (isNewJob store), l.filter (isRetryJob store)) := by
  induction l with
  | nil => rfl
  | cons job rest ih =>
    simp only [get_jobs_to_process, ih, List.filter_cons]
    cases hj : job.url with
    | none => simp [isNewJob, isRetryJob, hj]
    | some u =>
      by_cases hu : u = ""
      · simp [isNewJob, isRetryJob, hj, hu]
      · cases hf : Store.find store u with
        | none => simp [isNewJob, isRetryJob, hj, hu, hf]
        | some e =>
          cases hs : e.status with
          | none => simp [isNewJob, isRetryJob, hj, hu, hf, hs]
          | some st =>
            by_cases hc : st ≠ "" ∧ st ∉ finalStatuses
            · simp [isNewJob, isRetryJob, hj, hu, hf, hs, hc]
            · simp [isNewJob, isRetryJob, hj, hu, hf, hs, hc]

theorem isNewJob_retryJob_exclusive (store : Store) (j : Job) :
    ¬ (isNewJob store j = true ∧ isRetryJob store j = true) := by
  rintro ⟨hn, hr⟩
  cases hj : j.url with
  | none => simp [isNewJob, hj] at hn
  | some u =>
    by_cases hu : u = ""
    · simp [isNewJob, hj, hu] at hn
    · cases hf : Store.find store u with
      | none => simp [isRetryJob, hj, hu, hf] at hr
      | some e => simp [isNewJob, hj, hu, hf] at hn

theorem applyCallsOn_history (u : String) (hu : u ≠ "") :
    ∀ (calls : List CallArgs) (s : Store) (r : JobRecord) (hist : List HistoryEntry),
      Store.find s u = some r → r.history = some hist →
      ∃ r2, Store.find (applyCallsOn u s calls) u = some r2 ∧
        r2.history = some (hist ++ calls.map entryOf) ∧
        (calls = [] → r2 = r) ∧
        (∀ h : calls ≠ [],
          r2.status = some ((calls.getLast h).2.1) ∧
          r2.explanation = explAfter ((calls.getLast h).2.2.1) ∧
          r2.last_updated = some ((calls.getLast h).2.2.2)) := by
  intro calls
  induction calls with
  | nil =>
    intro s r hist hf hh
    exact ⟨r, hf, by simp [applyCallsOn, hh], fun _ => rfl, fun h => absurd rfl h⟩
  | cons c rest ih =>
    intro s r hist hf hh
    have hstep : Store.find (update_job_status s u c.1 c.2.1 c.2.2.1 c.2.2.2) u =
        some (applyStatus (recordBase (some r) c.1) c.2.1 c.2.2.1 c.2.2.2) := by
      rw [find_update_self _ _ _ _ _ _ hu, hf]
    have hr1hist : (applyStatus (recordBase (some r) c.1) c.2.1 c.2.2.1 c.2.2.2).history =
        some (hist ++ [entryOf c]) := by
      rw [(applyStatus_fields (recordBase (some r) c.1) c.2.1 c.2.2.1 c.2.2.2).2.2.2.1,
        (recordBase_fields (some r) c.1).1]
      simp [hh, entryOf]
    obtain ⟨r2, hf2, hh2, hnil2, hlast2⟩ :=
      ih (update_job_status s u c.1 c.2.1 c.2.2.1 c.2.2.2)
        (applyStatus (recordBase (some r) c.1) c.2.1 c.2.2.1 c.2.2.2)
        (hist ++ [entryOf c]) hstep hr1hist
    refine ⟨r2, hf2, ?_, ?_, ?_⟩
    · rw [hh2]; simp
    · intro h; exact absurd h (List.cons_ne_nil c rest)
    · intro h
      cases rest with
      | nil =>
        have hr2 : r2 = applyStatus (recordBase (some r) c.1) c.2.1 c.2.2.1 c.2.2.2 :=
          hnil2 rfl
        have hfields := applyStatus_fields (recordBase (some r) c.1) c.2.1 c.2.2.1 c.2.2.2
        simp only [List.getLast_singleton, hr2]
        exact ⟨hfields.1, hfields.2.1, hfields.2.2.1⟩
      | cons d t =>
        have hne : d :: t ≠ ([] : List CallArgs) := List.cons_ne_nil d t
        have := hlast2 hne
        rwa [List.getLast_cons hne]

/-! ## Store claim theorems -/

/-- C1: once `update_job_status` has recorded the terminal status `Applied` or
`Not Relevant` for a URL, any later `update_job_status` calls on *other* URLs
leave that record terminal, and `get_jobs_to_process` never returns a job
with that URL in either the new list or the retry list. -/
theorem c1_terminal_exclusion (s : Store) (u t tstat : String) (hu : u ≠ "")
    (hterm : tstat = ("Applied") ∨ tstat = ("Not Relevant")) (e : Option String) (n : Nat)
    (rest : List UpdateArgs) (hrest : ∀ a ∈ rest, a.1 ≠ u) (found : List Job) :
    (∀ j ∈ (get_jobs_to_process (applyUpdates (update_job_status s u t tstat e n) rest)
        found).1, j.url ≠ some u) ∧
    (∀ j ∈ (get_jobs_to_process (applyUpdates (update_job_status s u t tstat e n) rest)
        found).2, j.url ≠ some u) := by
  have hfind : Store.find (applyUpdates (update_job_status s u t tstat e n) rest) u =
      some (applyStatus (recordBase (Store.find s u) t) tstat e n) := by
    rw [applyUpdates_find_ne u rest _ hrest, find_update_self _ _ _ _ _ _ hu]
  have hstat : (applyStatus (recordBase (Store.find s u) t) tstat e n).status = some tstat :=
    (applyStatus_fields _ _ _ _).1
  rw [get_eq_filter]
  constructor
  · intro j hj hurl
    have hp := (List.mem_filter.mp hj).2
    simp [isNewJob, hurl, hu, hfind] at hp
  · intro j hj hurl
    have hp := (List.mem_filter.mp hj).2
    simp [isRetryJob, hurl, hu, hfind, hstat] at hp
    rcases hterm with h | h <;> subst h <;> simp [finalStatuses] at hp

/-- Witness for C1: after marking url `u` as `Applied` in an empty store and
then recording an error for a different url `v`, the job stub for `u` is in
neither output of `get_jobs_to_process`. -/
theorem c1_terminal_exclusion_witness :
    jobU ∉ (get_jobs_to_process (applyUpdates (update_job_status ([]) ("u") ("T") ("Applied")
        none 0) ([(("v"), ("S"), ("Error_Scraping"), none, 1)])) ([jobU, jobV])).1 ∧
    jobU ∉ (get_jobs_to_process (applyUpdates (update_job_status ([]) ("u") ("T") ("Applied")
        none 0) ([(("v"), ("S"), ("Error_Scraping"), none, 1)])) ([jobU, jobV])).2 := by
  have h := c1_terminal_exclusion ([]) ("u") ("T") ("Applied") (by decide) (Or.inl rfl) none 0
    ([(("v"), ("S"), ("Error_Scraping"), none, 1)]) (by decide) ([jobU, jobV])
  exact ⟨fun hm => h.1 jobU hm rfl, fun hm => h.2 jobU hm rfl⟩

/-- C3: starting from a store with no record for a non-empty url, a sequence
of `update_job_status` calls on that url yields a record whose history is
exactly the per-call entries in call order (so its length is the number of
calls and earlier entries are untouched), and whose current status,
explanation (cleared unless a truthy explanation was supplied) and
`last_updated` are the last call's arguments. -/
theorem c3_history_append_only (u : String) (hu : u ≠ "") (s : Store)
    (h0 : Store.find s u = none) (calls : List CallArgs) (hne : calls ≠ []) :
    (Store.find (applyCallsOn u s calls) u).map (fun r => r.history) =
        some (some (calls.map entryOf)) ∧
    (calls.map entryOf).length = calls.length ∧
    (Store.find (applyCallsOn u s calls) u).map (fun r => r.status) =
        some (some ((calls.getLast hne).2.1)) ∧
    (Store.find (applyCallsOn u s calls) u).map (fun r => r.explanation) =
        some (explAfter ((calls.getLast hne).2.2.1)) ∧
    (Store.find (applyCallsOn u s calls) u).map (fun r => r.last_updated) =
        some (some ((calls.getLast hne).2.2.2)) := by
  cases calls with
  | nil => exact absurd rfl hne
  | cons c rest =>
    have hstep : Store.find (update_job_status s u c.1 c.2.1 c.2.2.1 c.2.2.2) u =
        some (applyStatus (recordBase none c.1) c.2.1 c.2.2.1 c.2.2.2) := by
      rw [find_update_self _ _ _ _ _ _ hu, h0]
    have hfields := applyStatus_fields (recordBase none c.1) c.2.1 c.2.2.1 c.2.2.2
    have hhist1 : (applyStatus (recordBase none c.1) c.2.1 c.2.2.1 c.2.2.2).history =
        some ([entryOf c]) := by
      rw [hfields.2.2.2.1, (recordBase_fields none c.1).1]
      simp [entryOf]
    obtain ⟨r2, hf2, hh2, hnil2, hlast2⟩ :=
      applyCallsOn_history u hu rest (update_job_status s u c.1 c.2.1 c.2.2.1 c.2.2.2)
        (applyStatus (recordBase none c.1) c.2.1 c.2.2.1 c.2.2.2) ([entryOf c]) hstep hhist1
    have hfind : Store.find (applyCallsOn u s (c :: rest)) u = some r2 := hf2
    cases rest with
    | nil =>
      have hr2 : r2 = applyStatus (recordBase none c.1) c.2.1 c.2.2.1 c.2.2.2 := hnil2 rfl
      rw [hfind, hr2]
      simp only [Option.map_some', List.getLast_singleton, List.map_cons, List.map_nil]
      exact ⟨by rw [hhist1], rfl, by rw [hfields.1], by rw [hfields.2.1],
        by rw [hfields.2.2.1]⟩
    | cons d t =>
      have hne2 : d :: t ≠ ([] : List CallArgs) := List.cons_ne_nil d t
      obtain ⟨hst, hex, hlu⟩ := hlast2 hne2
      rw [hfind]
      simp only [Option.map_some']
      refine ⟨?_, by simp, ?_, ?_, ?_⟩
      · rw [hh2]; simp
      · rw [List.getLast_cons hne2, hst]
      · rw [List.getLast_cons hne2, hex]
      · rw [List.getLast_cons hne2, hlu]

/-- Witness for C3: two calls on url `u` (first `Relevant` with an
explanation, then `Error_PdfGeneration` without one) leave a two-entry
history in call order, with the earlier `Relevant` entry retained, and the
current fields taken from the second call. -/
theorem c3_history_append_only_witness :
    (Store.find (applyCallsOn ("u") ([]) callsW) ("u")).map (fun r => r.history) =
        some (some ([⟨0, ("Relevant"), some ("fits")⟩, ⟨1, ("Error_PdfGeneration"), none⟩])) ∧
    (callsW.map entryOf).length = callsW.length ∧
    (Store.find (applyCallsOn ("u") ([]) callsW) ("u")).map (fun r => r.status) =
        some (some (("Error_PdfGeneration"))) ∧
    (Store.find (applyCallsOn ("u") ([]) callsW) ("u")).map (fun r => r.explanation) =
        some none ∧
    (Store.find (applyCallsOn ("u") ([]) callsW) ("u")).map (fun r => r.last_updated) =
        some (some 1) :=
  c3_history_append_only ("u") (by decide) ([]) rfl callsW (by decide)

/-- C5 counterexample: a candidate whose URL appears twice in the input and
has no prior record is returned twice in the new list — `get_jobs_to_process`
performs no de-duplication within a call, so the candidate does not appear
at most once across the two output lists. -/
theorem c5_counterexample :
    (get_jobs_to_process ([]) ([⟨some ("u"), none⟩, ⟨some ("u"), none⟩])).1 =
      ([⟨some ("u"), none⟩, ⟨some ("u"), none⟩] : List Job) ∧
    ((get_jobs_to_process ([]) ([⟨some ("u"), none⟩, ⟨some ("u"), none⟩])).1).length = 2 := by
  decide

/-- C5 (amended): `get_jobs_to_process` places each *occurrence* of a
retryable candidate in exactly one of the two lists — the outputs are the
input filtered by the mutually exclusive new/retry conditions, preserving
input order and multiplicity; duplicated ids are not de-duplicated. -/
theorem c5_partition_per_occurrence (store : Store) (l : List Job) :
    get_jobs_to_process store l = (l.filter (isNewJob store), l.filter (isRetryJob store)) ∧
    (∀ j : Job, ¬ (isNewJob store j = true ∧ isRetryJob store j = true)) :=
  ⟨get_eq_filter store l, fun j => isNewJob_retryJob_exclusive store j⟩

/-- C7 counterexample: a failure inside `json.dump` and a successful save
leave the caller-visible state identical — the same in-memory store and the
same `None` return value — even though the two runs genuinely differ on disk
(torn file versus complete dump): no explicit failure indicator reaches the
caller; the exception is caught and only logged. -/
theorem c7_counterexample :
    (update_job_status_and_save ⟨[], DiskContent.full []⟩ ("u") ("T") ("Applied") none 0
        (PersistResult.failDuringDump [])).1.mem =
      (update_job_status_and_save ⟨[], DiskContent.full []⟩ ("u") ("T") ("Applied") none 0
        PersistResult.ok).1.mem ∧
    (update_job_status_and_save ⟨[], DiskContent.full []⟩ ("u") ("T") ("Applied") none 0
        (PersistResult.failDuringDump [])).2 =
      (update_job_status_and_save ⟨[], DiskContent.full []⟩ ("u") ("T") ("Applied") none 0
        PersistResult.ok).2 ∧
    (update_job_status_and_save ⟨[], DiskContent.full []⟩ ("u") ("T") ("Applied") none 0
        (PersistResult.failDuringDump [])).1.disk ≠
      (update_job_status_and_save ⟨[], DiskContent.full []⟩ ("u") ("T") ("Applied") none 0
        PersistResult.ok).1.disk := by
  decide

/-- C7 (amended): on persistence failure the in-memory mutation is retained
(not dropped), but the failure is *not* reported to the caller: whatever the
persistence outcome — success, a failure before the file is opened, or a
failure inside the dump that leaves the file torn — the method applies the
same in-memory mutation and returns the same unit value as on success, with
the error swallowed into a log. -/
theorem c7_persistence_silent (st : JFState) (u t stat : String) (e : Option String) (n : Nat)
    (hu : u ≠ "") (res : PersistResult) :
    (update_job_status_and_save st u t stat e n res).1.mem =
        update_job_status st.mem u t stat e n ∧
    (update_job_status_and_save st u t stat e n res).2 =
        (update_job_status_and_save st u t stat e n PersistResult.ok).2 := by
  cases res <;> simp [update_job_status_and_save, save_processed_jobs, hu]

/-- Witness for C7 (amended) at a concrete call on an empty state whose dump
fails midway. -/
theorem c7_persistence_silent_witness :
    (update_job_status_and_save ⟨[], DiskContent.full []⟩ ("u") ("T") ("Applied") none 0
        (PersistResult.failDuringDump [])).1.mem =
        update_job_status ([] : Store) ("u") ("T") ("Applied") none 0 ∧
    (update_job_status_and_save ⟨[], DiskContent.full []⟩ ("u") ("T") ("Applied") none 0
        (PersistResult.failDuringDump [])).2 =
      (update_job_status_and_save ⟨[], DiskContent.full []⟩ ("u") ("T") ("Applied") none 0
        PersistResult.ok).2 :=
  c7_persistence_silent ⟨[], DiskContent.full []⟩ ("u") ("T") ("Applied") none 0 (by decide)
    (PersistResult.failDuringDump [])

/-- C9: with an empty store, every candidate with a truthy url is returned in
the new list (in input order) and the retry list is empty; the source method
only reads `self.processed_jobs`, which the pure embedding reflects. -/
theorem c9_fresh_classification (found : List Job)
    (hfound : ∀ j ∈ found, hasRealUrl j = true) :
    get_jobs_to_process ([]) found = (found, []) := by
  rw [get_eq_filter]
  have h1 : found.filter (isNewJob ([])) = found := by
    rw [List.filter_eq_self]
    intro j hj
    have := hfound j hj
    cases hju : j.url with
    | none => simp [hasRealUrl, hju] at this
    | some u =>
      simp only [hasRealUrl, hju, Bool.not_eq_true'] at this
      have hne : u ≠ "" := by simpa using this
      simp [isNewJob, hju, Store.find, hne]
  have h2 : found.filter (isRetryJob ([])) = [] := by
    rw [List.filter_eq_nil_iff]
    intro j hj
    cases hju : j.url with
    | none => simp [isRetryJob, hju]
    | some u =>
      by_cases hu : u = "" <;> simp [isRetryJob, hju, hu, Store.find]
  rw [h1, h2]

/-- Witness for C9: two fresh candidates are both classified as new. -/
theorem c9_fresh_classification_witness :
    get_jobs_to_process ([]) ([jobU, jobV]) = (([jobU, jobV] : List Job), ([] : List Job)) :=
  c9_fresh_classification ([jobU, jobV]) (by decide)

/-- C10: for a candidate whose url has an existing record, `get_jobs_to_process`
never returns it as new, and returns it in the retry list exactly when the
stored status is present, non-empty and non-final; a record whose status is
absent or empty is silently returned in neither list. -/
theorem c10_implicit_retryability (s : Store) (u : String) (hu : u ≠ "") (r : JobRecord)
    (hr : Store.find s u = some r) (j : Job) (hj : j.url = some u) (found : List Job) :
    j ∉ (get_jobs_to_process s found).1 ∧
    (j ∈ (get_jobs_to_process s found).2 ↔ (j ∈ found ∧ retryStatus r = true)) := by
  have hiso : isRetryJob s j = retryStatus r := by
    cases hst : r.status <;> simp [isRetryJob, retryStatus, hj, hu, hr, hst]
  rw [get_eq_filter]
  constructor
  · intro hm
    have hp := (List.mem_filter.mp hm).2
    simp [isNewJob, hj, hu, hr] at hp
  · rw [List.mem_filter, hiso]

/-- Witness for C10: with a stored `Relevant` record for url `u`, the stub is
not new and is retried; the iff is applied at a concrete store and input. -/
theorem c10_implicit_retryability_witness :
    jobU ∉ (get_jobs_to_process ([(("u"), recRelevant)]) ([jobU])).1 ∧
    (jobU ∈ (get_jobs_to_process ([(("u"), recRelevant)]) ([jobU])).2 ↔
      (jobU ∈ ([jobU] : List Job) ∧ retryStatus recRelevant = true)) :=
  c10_implicit_retryability ([(("u"), recRelevant)]) ("u") (by decide) recRelevant rfl jobU rfl
    ([jobU])

end WalmartApplier
